import Mathlib

/-!
Verification of the pyita moving-average engine and time-series container.

The embedding models floating-point samples as `Option ℚ`: `none` is the
NaN sentinel, `some q` a finite value.  All arithmetic on samples
propagates `none` exactly as IEEE arithmetic propagates NaN; finite
arithmetic is exact rational arithmetic.  Python exceptions are modelled
with `Except`, the exception's payload data (actual/required lengths,
offending column names) kept structurally.
-/

namespace Pyita

/-- A sample of a numeric series: `none` models the NaN sentinel. -/
abbrev Value := Option ℚ

/-- Addition with NaN propagation. -/
def vadd : Value → Value → Value
  | some a, some b => some (a + b)
  | _, _ => none

/-- Multiplication of a sample by a finite constant, with NaN propagation. -/
def vmulc : Value → ℚ → Value
  | some a, c => some (a * c)
  | none, _ => none

/-- Division of a sample by a finite constant, with NaN propagation. -/
def vdivc : Value → ℚ → Value
  | some a, c => some (a / c)
  | none, _ => none

/-- Sum of a list of samples (`numpy.sum` / convolution accumulation):
`none` as soon as one term is NaN. -/
def vsum (l : List Value) : Value := l.foldl vadd (some 0)

/-- Errors raised by the library (`PyTAException*` classes), with the data
their messages carry. -/
inductive PyTAError where
  | tooLittleData (actual required : ℕ)
  | badParameterValue (what : String)
  | seriesNotFound (name : String)
  | unknownColumn (name : String)
  | missingRequiredColumn (name : String)
  | differentLengths (lengths : List (String × ℕ))
  | indexOutOfRange (index : ℤ) (length : ℕ)
  deriving DecidableEq

/-- Embeds `move_average.get_first_index_not_nan`: index of the first non-NaN
sample, or the length when every sample is NaN. -/
def get_first_index_not_nan (values : List Value) : ℕ :=
  match List.findIdx? Option.isSome values with
  | some i => i
  | none => values.length

/-- One step of the exponential recurrence
`ema_value = source[i] * alpha + ema_value * (1 - alpha)`. -/
def ema_step (alpha : ℚ) (prev x : Value) : Value :=
  vadd (vmulc x alpha) (vmulc prev (1 - alpha))

/-- The loop `for i in range(start + 1, len(source))` of `ema_calculate`:
outputs after the seed position, given the running value `prev`. -/
def ema_tail (alpha : ℚ) : Value → List Value → List Value
  | _, [] => []
  | prev, x :: rest =>
    ema_step alpha prev x :: ema_tail alpha (ema_step alpha prev x) rest

/-- The seed position and seed value `ema_calculate` settles on: a non-NaN
`first_value` is used at position `start`; a NaN `first_value` makes the
function scan for the first non-NaN sample (falling back to
`source[start]` when the scan finds none). -/
def ema_seed (source : List Value) (first_value : Value) (start : ℕ) : ℕ × Value :=
  match first_value with
  | some v => (start, some v)
  | none =>
    match List.findIdx? Option.isSome source with
    | some i => (i, source.getD i none)
    | none => (start, source.getD start none)

/-- Embeds `move_average.ema_calculate`: NaN before the seed position, the seed
value there, then the exponential recurrence. -/
def ema_calculate (source : List Value) (alpha : ℚ) (first_value : Value) (start : ℕ) :
    List Value :=
  List.replicate (ema_seed source first_value start).1 none ++
    (ema_seed source first_value start).2 ::
      ema_tail alpha (ema_seed source first_value start).2
        (source.drop ((ema_seed source first_value start).1 + 1))

/-- Embeds `move_average.sma_calculate`: identity at period 1; insufficient-data
error when the source is shorter than the period; otherwise the
convolution of the source with `period` weights `1/period`, the first
`period - 1` entries overwritten with NaN. -/
def sma_calculate (source : List Value) (period : ℕ) : Except PyTAError (List Value) :=
  if period = 1 then .ok source
  else if source.length < period then .error (.tooLittleData source.length period)
  else .ok ((List.range source.length).map fun i =>
    if i + 1 < period then none
    else vsum (((source.drop (i + 1 - period)).take period).map
      (fun x => vmulc x (1 / (period : ℚ)))))

/-- Embeds `move_average.iema_calculate`: SMA-seeded exponential average.  The
seed is the mean of the `period` samples starting at the first non-NaN
index, placed at position `start + period - 1`. -/
def iema_calculate (source : List Value) (period : ℕ) (alpha : ℚ) :
    Except PyTAError (List Value) :=
  if source.length < get_first_index_not_nan source + period then
    .error (.tooLittleData source.length (get_first_index_not_nan source + period))
  else
    .ok (ema_calculate source alpha
      (vdivc (vsum ((source.drop (get_first_index_not_nan source)).take period)) (period : ℚ))
      (get_first_index_not_nan source + period - 1))

/-- Embeds `move_average.ema_warmup_init`: the TA-Lib style warm-up seed, smoothing
the samples `source[start..start+period-1]` with the dynamically decreasing
weight `1/(i+1)` at warm-up step `i`. -/
def ema_warmup_init (source : List Value) (period start : ℕ) : Value :=
  (List.range' 1 (period - 1)).foldl
    (fun init i =>
      vadd (vmulc (source.getD (start + i) none) (1 / ((i : ℚ) + 1)))
           (vmulc init (1 - 1 / ((i : ℚ) + 1))))
    (source.getD start none)

/-- Embeds `move_average.ema_warmup_calculate`: all-NaN output when every sample
is NaN; insufficient-data error when fewer than `period` samples remain
from the first non-NaN index; otherwise the exponential recurrence seeded
by `ema_warmup_init`. -/
def ema_warmup_calculate (source : List Value) (period : ℕ) (alpha : ℚ) :
    Except PyTAError (List Value) :=
  if source.length ≤ get_first_index_not_nan source then
    .ok (List.replicate source.length none)
  else if source.length < get_first_index_not_nan source + period then
    .error (.tooLittleData source.length (get_first_index_not_nan source + period))
  else
    .ok (ema_calculate source alpha
      (ema_warmup_init source period (get_first_index_not_nan source))
      (get_first_index_not_nan source + period - 1))

/-- The seven variants of `move_average.MA_Type`. -/
inductive MA_Type where
  | ema | sma | mma | ema0 | mma0 | ema_warmup | mma_warmup
  deriving DecidableEq

/-- Embeds `MA_Type.cast`: the string aliases of the variants. -/
def MA_Type.cast (s : String) : Option MA_Type :=
  if s = "ema" then some .ema
  else if s = "sma" then some .sma
  else if s = "mma" then some .mma
  else if s = "ema0" then some .ema0
  else if s = "mma0" then some .mma0
  else if s = "emaw" then some .ema_warmup
  else if s = "mmaw" then some .mma_warmup
  else none

/-- Embeds `move_average.ma_calculate`: dispatch on the variant, fixing the
smoothing factor `2/(period+1)` (classic) or `1/period` (Wilder). -/
def ma_calculate (source : List Value) (period : ℕ) (ma_type : MA_Type) :
    Except PyTAError (List Value) :=
  match ma_type with
  | .sma => sma_calculate source period
  | .ema0 => .ok (ema_calculate source (2 / ((period : ℚ) + 1)) none 0)
  | .mma0 => .ok (ema_calculate source (1 / (period : ℚ)) none 0)
  | .ema => iema_calculate source period (2 / ((period : ℚ) + 1))
  | .mma => iema_calculate source period (1 / (period : ℚ))
  | .ema_warmup => ema_warmup_calculate source period (2 / ((period : ℚ) + 1))
  | .mma_warmup => ema_warmup_calculate source period (1 / (period : ℚ))

/-- A container's columns: ordered association of column name to series.
Column insertion order is kept, as in the Python dict. -/
abbrev Columns := List (String × List Value)

/-- Embeds `DataSeries._check_lengths`: every column's length equals the first
column's length. -/
def check_lengths (d : Columns) : Bool :=
  match d with
  | [] => true
  | c :: rest => rest.all (fun c2 => c2.2.length = c.2.length)

/-- The per-column lengths listed by the length-mismatch error message. -/
def col_lengths (d : Columns) : List (String × ℕ) :=
  d.map (fun c => (c.1, c.2.length))

/-- Embeds `DataSeries._validate_data`: the allowed-column check, then the
required-column check, then (with more than one column) the equal-length
check. -/
def validate_data (required allowed : Option (List String)) (d : Columns) :
    Except PyTAError Unit :=
  match (match allowed with
         | some al => (d.map Prod.fst).find? (fun c => !(al.contains c))
         | none => none) with
  | some c => .error (.unknownColumn c)
  | none =>
    match (match required with
           | some req => req.find? (fun c => !((d.map Prod.fst).contains c))
           | none => none) with
    | some c => .error (.missingRequiredColumn c)
    | none =>
      if 1 < d.length ∧ ¬ check_lengths d then .error (.differentLengths (col_lengths d))
      else .ok ()

/-- Embeds `Quotes.REQUIRED_COLUMNS`. -/
def quotes_required : List String := ["open", "high", "low", "close"]

/-- Embeds `Quotes.ALLOWED_COLUMNS`. -/
def quotes_allowed : List String := ["open", "high", "low", "close", "volume", "time"]

/-- Validation run by Quote-container construction. -/
def quotes_validate (d : Columns) : Except PyTAError Unit :=
  validate_data (some quotes_required) (some quotes_allowed) d

/-- Python list slice `xs[a:b]` for non-negative bounds. -/
def list_slice (xs : List Value) (a b : ℕ) : List Value :=
  (xs.drop a).take (b - a)

/-- Embeds `DataSeries._create_sliced` on a non-strided range `[a, b)`: every
column sliced identically; never fails. -/
def create_sliced_range (d : Columns) (a b : ℕ) : Columns :=
  d.map (fun c => (c.1, list_slice c.2 a b))

/-- Embeds `DataSeries._create_sliced` on an integer index: empty container
untouched; negative index counted from the end; out of range raises
IndexError; otherwise the slice `[key, key+1)`. -/
def create_sliced_int (d : Columns) (key : ℤ) : Except PyTAError Columns :=
  match d with
  | [] => .ok []
  | c :: _ =>
    if (if key < 0 then (c.2.length : ℤ) + key else key) < 0 ∨
        (c.2.length : ℤ) ≤ (if key < 0 then (c.2.length : ℤ) + key else key) then
      .error (.indexOutOfRange (if key < 0 then (c.2.length : ℤ) + key else key) c.2.length)
    else
      .ok (d.map (fun col => (col.1,
        list_slice col.2 (if key < 0 then (c.2.length : ℤ) + key else key).toNat
          ((if key < 0 then (c.2.length : ℤ) + key else key).toNat + 1))))

/-- Embeds `indicators.ma.get_indicator_out`: parameter validation, column
lookup, the indicator-level length check, then the engine.  The `period`
parameter is modelled as a natural number, `period = 0` standing for the
rejected domain `period <= 0`. -/
def get_indicator_out (quotes : Columns) (period : ℕ) (value : String) (ma_type : String) :
    Except PyTAError (List Value) :=
  if period = 0 then .error (.badParameterValue "period")
  else if !(["open", "high", "low", "close", "volume"].contains value) then
    .error (.badParameterValue "value")
  else
    match MA_Type.cast ma_type with
    | none => .error (.badParameterValue "ma_type")
    | some t =>
      match List.lookup value quotes with
      | none => .error (.seriesNotFound value)
      | some src =>
        if src.length < period then .error (.tooLittleData src.length period)
        else ma_calculate src period t

/-! ### Arithmetic lemmas on samples -/

theorem vadd_none_left (x : Value) : vadd none x = none := by cases x <;> rfl

theorem vadd_none_right (x : Value) : vadd x none = none := by cases x <;> rfl

theorem vadd_zero_left (x : Value) : vadd (some 0) x = x := by cases x <;> simp [vadd]

theorem vadd_zero_right (x : Value) : vadd x (some 0) = x := by cases x <;> simp [vadd]

theorem vadd_assoc (a b c : Value) : vadd (vadd a b) c = vadd a (vadd b c) := by
  cases a <;> cases b <;> cases c <;> simp [vadd, add_assoc, vadd_none_left, vadd_none_right]

theorem foldl_vadd (l : List Value) : ∀ a : Value, l.foldl vadd a = vadd a (vsum l) := by
  induction l with
  | nil => intro a; simp [vsum, vadd_zero_right]
  | cons x l ih =>
    intro a
    have hx : vsum (x :: l) = vadd x (vsum l) := by
      show List.foldl vadd (vadd (some 0) x) l = vadd x (vsum l)
      rw [vadd_zero_left, ih x]
    show List.foldl vadd (vadd a x) l = vadd a (vsum (x :: l))
    rw [ih (vadd a x), hx, vadd_assoc]

theorem vsum_cons (x : Value) (l : List Value) : vsum (x :: l) = vadd x (vsum l) := by
  show List.foldl vadd (vadd (some 0) x) l = vadd x (vsum l)
  rw [vadd_zero_left, foldl_vadd l x]

theorem vsum_concat (l : List Value) (x : Value) : vsum (l ++ [x]) = vadd (vsum l) x := by
  show List.foldl vadd (some 0) (l ++ [x]) = vadd (vsum l) x
  rw [List.foldl_append]
  rfl

theorem vmulc_vadd (a b : Value) (c : ℚ) :
    vmulc (vadd a b) c = vadd (vmulc a c) (vmulc b c) := by
  cases a <;> cases b <;> simp [vadd, vmulc, add_mul]

theorem vsum_map_vmulc (l : List Value) (c : ℚ) :
    vsum (l.map fun x => vmulc x c) = vmulc (vsum l) c := by
  induction l with
  | nil => simp [vsum, vmulc]
  | cons x l ih => rw [List.map_cons, vsum_cons, vsum_cons, ih, vmulc_vadd]

theorem vsum_map_some (l : List ℚ) : vsum (l.map some) = some l.sum := by
  induction l with
  | nil => simp [vsum]
  | cons x l ih => rw [List.map_cons, vsum_cons, ih, List.sum_cons]; rfl

theorem vsum_isSome (l : List Value) (h : ∀ x ∈ l, x ≠ none) : ∃ q, vsum l = some q := by
  induction l with
  | nil => exact ⟨0, rfl⟩
  | cons x l ih =>
    obtain ⟨q, hq⟩ := ih (fun y hy => h y (List.mem_cons_of_mem x hy))
    obtain ⟨a, ha⟩ := Option.ne_none_iff_exists.mp (h x (List.mem_cons_self x l))
    exact ⟨a + q, by rw [vsum_cons, hq, ← ha]; rfl⟩

/-! ### Shape of the exponential recurrence's output -/

theorem ema_step_src_none (alpha : ℚ) (prev : Value) : ema_step alpha prev none = none := by
  show vadd (vmulc none alpha) (vmulc prev (1 - alpha)) = none
  rw [show vmulc none alpha = none from rfl, vadd_none_left]

theorem ema_step_prev_none (alpha : ℚ) (x : Value) : ema_step alpha none x = none := by
  show vadd (vmulc x alpha) (vmulc none (1 - alpha)) = none
  rw [show vmulc none (1 - alpha) = none from rfl, vadd_none_right]

theorem ema_tail_length (alpha : ℚ) (l : List Value) :
    ∀ prev : Value, (ema_tail alpha prev l).length = l.length := by
  induction l with
  | nil => intro prev; rfl
  | cons x rest ih => intro prev; simp [ema_tail, ih]

theorem ema_tail_getD (alpha : ℚ) (l : List Value) :
    ∀ (prev : Value) (j : ℕ), j < l.length →
      (ema_tail alpha prev l).getD j none =
        ema_step alpha ((prev :: ema_tail alpha prev l).getD j none) (l.getD j none) := by
  induction l with
  | nil => intro prev j hj; simp at hj
  | cons x rest ih =>
    intro prev j hj
    match j with
    | 0 => simp [ema_tail]
    | j + 1 =>
      simp only [ema_tail, List.getD_cons_succ]
      exact ih (ema_step alpha prev x) j (by simpa using hj)

theorem ema_calculate_eq (source : List Value) (alpha : ℚ) (first_value : Value) (start : ℕ)
    (t : ℕ) (seed : Value) (h : ema_seed source first_value start = (t, seed)) :
    ema_calculate source alpha first_value start =
      List.replicate t none ++ seed :: ema_tail alpha seed (source.drop (t + 1)) := by
  simp [ema_calculate, h]

theorem ema_calculate_length (source : List Value) (alpha : ℚ) (first_value : Value)
    (start t : ℕ) (seed : Value) (h : ema_seed source first_value start = (t, seed))
    (ht : t < source.length) :
    (ema_calculate source alpha first_value start).length = source.length := by
  rw [ema_calculate_eq source alpha first_value start t seed h]
  simp [ema_tail_length]
  omega

theorem ema_calculate_getD_lt (source : List Value) (alpha : ℚ) (first_value : Value)
    (start t : ℕ) (seed : Value) (h : ema_seed source first_value start = (t, seed))
    (i : ℕ) (hi : i < t) :
    (ema_calculate source alpha first_value start).getD i none = none := by
  rw [ema_calculate_eq source alpha first_value start t seed h,
    List.getD_append _ _ _ _ (by simpa using hi)]
  simp [List.getD_eq_getElem?_getD]

theorem ema_calculate_getD_seed (source : List Value) (alpha : ℚ) (first_value : Value)
    (start t : ℕ) (seed : Value) (h : ema_seed source first_value start = (t, seed)) :
    (ema_calculate source alpha first_value start).getD t none = seed := by
  rw [ema_calculate_eq source alpha first_value start t seed h,
    List.getD_append_right _ _ _ _ (by simp)]
  simp

theorem ema_calculate_getD_rec (source : List Value) (alpha : ℚ) (first_value : Value)
    (start t : ℕ) (seed : Value) (h : ema_seed source first_value start = (t, seed))
    (i : ℕ) (h1 : t < i) (h2 : i < source.length) :
    (ema_calculate source alpha first_value start).getD i none =
      ema_step alpha ((ema_calculate source alpha first_value start).getD (i - 1) none)
        (source.getD i none) := by
  obtain ⟨k, rfl⟩ : ∃ k, i = t + k + 1 := ⟨i - t - 1, by omega⟩
  rw [ema_calculate_eq source alpha first_value start t seed h]
  have hrep : (List.replicate t (none : Value)).length = t := List.length_replicate t none
  rw [List.getD_append_right _ _ _ _ (by rw [hrep]; omega),
    List.getD_append_right _ _ _ _ (by rw [hrep]; omega), hrep]
  have e1 : t + k + 1 - t = k + 1 := by omega
  have e2 : t + k + 1 - 1 - t = k := by omega
  rw [e1, e2, List.getD_cons_succ]
  have hkd : k < (source.drop (t + 1)).length := by
    rw [List.length_drop]; omega
  rw [ema_tail_getD alpha (source.drop (t + 1)) seed k hkd]
  have hsrc : (source.drop (t + 1)).getD k none = source.getD (t + k + 1) none := by
    rw [List.getD_eq_getElem?_getD, List.getD_eq_getElem?_getD, List.getElem?_drop,
      show t + 1 + k = t + k + 1 by omega]
  rw [hsrc]

theorem ema_calculate_getD_none_from (source : List Value) (alpha : ℚ) (first_value : Value)
    (start t : ℕ) (seed : Value) (h : ema_seed source first_value start = (t, seed))
    (j : ℕ) (hj : t < j) (hjn : source.getD j none = none) :
    ∀ i, j ≤ i → i < source.length →
      (ema_calculate source alpha first_value start).getD i none = none := by
  intro i
  induction i using Nat.strong_induction_on with
  | _ i ih =>
    intro hji hilen
    cases Nat.eq_or_lt_of_le hji with
    | inl heq =>
      subst heq
      rw [ema_calculate_getD_rec source alpha first_value start t seed h j hj hilen, hjn,
        ema_step_src_none]
    | inr hlt =>
      have h1 : t < i := by omega
      rw [ema_calculate_getD_rec source alpha first_value start t seed h i h1 hilen,
        ih (i - 1) (by omega) (by omega) (by omega), ema_step_prev_none]

/-! ### The first non-NaN index -/

theorem findIdx?_of_first_lt (source : List Value)
    (h : get_first_index_not_nan source < source.length) :
    List.findIdx? Option.isSome source = some (get_first_index_not_nan source) := by
  rcases hf : List.findIdx? Option.isSome source with _ | i
  · exfalso
    have he : get_first_index_not_nan source = source.length := by
      unfold get_first_index_not_nan
      rw [hf]
    omega
  · have he : get_first_index_not_nan source = i := by
      unfold get_first_index_not_nan
      rw [hf]
    rw [he]

theorem ema_seed_some (source : List Value) (v : ℚ) (start : ℕ) :
    ema_seed source (some v) start = (start, some v) := rfl

theorem ema_seed_none_of_first_lt (source : List Value) (start : ℕ)
    (h : get_first_index_not_nan source < source.length) :
    ema_seed source none start =
      (get_first_index_not_nan source, source.getD (get_first_index_not_nan source) none) := by
  unfold ema_seed
  rw [findIdx?_of_first_lt source h]

/-! ### The warm-up seed is the running arithmetic mean -/

theorem take_drop_concat (source : List Value) (start m : ℕ) (h : start + m < source.length) :
    (source.drop start).take (m + 1) =
      (source.drop start).take m ++ [source.getD (start + m) none] := by
  rw [List.take_succ]
  have hx : (source.drop start)[m]? = some (source.getD (start + m) none) := by
    rw [List.getElem?_drop, List.getElem?_eq_getElem (by omega),
      List.getD_eq_getElem source none (by omega)]
  rw [hx]
  rfl

theorem warmup_fold_mean (source : List Value) (start : ℕ) :
    ∀ j : ℕ, start + j < source.length →
      (List.range' 1 j).foldl
        (fun init i =>
          vadd (vmulc (source.getD (start + i) none) (1 / ((i : ℚ) + 1)))
               (vmulc init (1 - 1 / ((i : ℚ) + 1))))
        (source.getD start none)
      = vdivc (vsum ((source.drop start).take (j + 1))) ((j : ℚ) + 1) := by
  intro j
  induction j with
  | zero =>
    intro h
    have h1 : (source.drop start).take 1 = [source.getD start none] := by
      simpa using take_drop_concat source start 0 (by omega)
    rw [List.range'_zero, List.foldl_nil, h1, vsum_cons,
      show vsum ([] : List Value) = some 0 from rfl, vadd_zero_right]
    cases source.getD start none with
    | none => rfl
    | some a =>
      show some a = some (a / ((0 : ℕ) + 1 : ℚ))
      norm_num
  | succ j ih =>
    intro h
    rw [List.range'_1_concat, List.foldl_append, ih (by omega),
      show 1 + j = j + 1 by omega, List.foldl_cons, List.foldl_nil,
      take_drop_concat source start (j + 1) (by omega), vsum_concat]
    have c1 : ((j : ℚ) + 1) ≠ 0 := by positivity
    have c2 : (((j + 1 : ℕ) : ℚ) + 1) ≠ 0 := by positivity
    cases hx : source.getD (start + (j + 1)) none with
    | none =>
      cases hS : vsum ((source.drop start).take (j + 1)) with
      | none => rfl
      | some S => rfl
    | some x =>
      cases hS : vsum ((source.drop start).take (j + 1)) with
      | none => rfl
      | some S =>
        show some (x * (1 / (((j + 1 : ℕ) : ℚ) + 1)) +
            S / ((j : ℚ) + 1) * (1 - 1 / (((j + 1 : ℕ) : ℚ) + 1))) =
          some ((S + x) / (((j + 1 : ℕ) : ℚ) + 1))
        congr 1
        push_cast at c2 ⊢
        field_simp
        ring

theorem ema_warmup_init_eq_mean (source : List Value) (period start : ℕ)
    (hp : 1 ≤ period) (hlen : start + period ≤ source.length) :
    ema_warmup_init source period start =
      vdivc (vsum ((source.drop start).take period)) ((period : ℕ) : ℚ) := by
  obtain ⟨j, rfl⟩ : ∃ j, period = j + 1 := ⟨period - 1, by omega⟩
  unfold ema_warmup_init
  rw [show j + 1 - 1 = j from rfl, warmup_fold_mean source start j (by omega)]
  norm_cast

/-! ### Unfolding the guarded engine entry points -/

theorem iema_calculate_of_short (source : List Value) (period : ℕ) (alpha : ℚ)
    (h : source.length < get_first_index_not_nan source + period) :
    iema_calculate source period alpha =
      .error (.tooLittleData source.length (get_first_index_not_nan source + period)) := by
  simp [iema_calculate, h]

theorem iema_calculate_of_enough (source : List Value) (period : ℕ) (alpha : ℚ)
    (h : ¬ source.length < get_first_index_not_nan source + period) :
    iema_calculate source period alpha =
      .ok (ema_calculate source alpha
        (vdivc (vsum ((source.drop (get_first_index_not_nan source)).take period))
          (period : ℚ))
        (get_first_index_not_nan source + period - 1)) := by
  simp [iema_calculate, h]

theorem ema_warmup_calculate_of_all_nan (source : List Value) (period : ℕ) (alpha : ℚ)
    (h : source.length ≤ get_first_index_not_nan source) :
    ema_warmup_calculate source period alpha = .ok (List.replicate source.length none) := by
  simp [ema_warmup_calculate, h]

theorem ema_warmup_calculate_of_short (source : List Value) (period : ℕ) (alpha : ℚ)
    (h1 : ¬ source.length ≤ get_first_index_not_nan source)
    (h2 : source.length < get_first_index_not_nan source + period) :
    ema_warmup_calculate source period alpha =
      .error (.tooLittleData source.length (get_first_index_not_nan source + period)) := by
  simp [ema_warmup_calculate, h1, h2]

theorem ema_warmup_calculate_of_enough (source : List Value) (period : ℕ) (alpha : ℚ)
    (h1 : ¬ source.length ≤ get_first_index_not_nan source)
    (h2 : ¬ source.length < get_first_index_not_nan source + period) :
    ema_warmup_calculate source period alpha =
      .ok (ema_calculate source alpha
        (ema_warmup_init source period (get_first_index_not_nan source))
        (get_first_index_not_nan source + period - 1)) := by
  simp [ema_warmup_calculate, h1, h2]

/-! ### Simple moving average -/

theorem sum_map_mul_const (w : List ℚ) (c : ℚ) :
    (w.map fun q => q * c).sum = w.sum * c := by
  induction w with
  | nil => simp
  | cons a w ih => simp [ih, add_mul]

theorem map_range_getD (n : ℕ) (f : ℕ → Value) (i : ℕ) (h : i < n) :
    ((List.range n).map f).getD i none = f i := by
  rw [List.getD_eq_getElem _ _ (by simpa using h)]
  simp

theorem sma_calculate_of_short (source : List Value) (period : ℕ)
    (hp : period ≠ 1) (h : source.length < period) :
    sma_calculate source period = .error (.tooLittleData source.length period) := by
  simp [sma_calculate, hp, h]

theorem sma_calculate_of_enough (source : List Value) (period : ℕ)
    (hp : period ≠ 1) (h : ¬ source.length < period) :
    sma_calculate source period = .ok ((List.range source.length).map fun i =>
      if i + 1 < period then none
      else vsum (((source.drop (i + 1 - period)).take period).map
        (fun x => vmulc x (1 / (period : ℚ))))) := by
  simp [sma_calculate, hp, h]

theorem sma_spec (source : List ℚ) (period : ℕ)
    (h2 : 2 ≤ period) (hlen : period ≤ source.length) :
    ∃ out, sma_calculate (source.map some) period = .ok out ∧
      out.length = source.length ∧
      (∀ i, i < period - 1 → out.getD i none = none) ∧
      (∀ i, period - 1 ≤ i → i < source.length →
        out.getD i none =
          some ((((source.drop (i + 1 - period)).take period).sum) / (period : ℚ))) := by
  have hp1 : period ≠ 1 := by omega
  have hml : (source.map some).length = source.length := List.length_map source some
  have hnl : ¬ (source.map some).length < period := by omega
  refine ⟨_, sma_calculate_of_enough (source.map some) period hp1 hnl, ?_, ?_, ?_⟩
  · simp [hml]
  · intro i hi
    rw [hml, map_range_getD _ _ i (by omega), if_pos (by omega)]
  · intro i h1 hilen
    rw [hml, map_range_getD _ _ i (by omega), if_neg (by omega)]
    have hwin : ((source.map some).drop (i + 1 - period)).take period
        = ((source.drop (i + 1 - period)).take period).map some := by
      rw [← List.map_drop, ← List.map_take]
    rw [hwin, List.map_map,
      show ((fun x => vmulc x (1 / (period : ℚ))) ∘ some)
          = (some ∘ fun q => q * (1 / (period : ℚ))) from rfl,
      ← List.map_map, vsum_map_some, sum_map_mul_const, mul_one_div]

/-- C1: for period at least 2 on an all-finite source at least period long,
the sma variant returns a series of the source's length, NaN strictly
before index period - 1, and at every later index the arithmetic mean of
the period most recent samples. -/
theorem sma_rolling_mean (source : List ℚ) (period : ℕ)
    (h2 : 2 ≤ period) (hlen : period ≤ source.length) :
    ∃ out, ma_calculate (source.map some) period MA_Type.sma = .ok out ∧
      out.length = source.length ∧
      (∀ i, i < period - 1 → out.getD i none = none) ∧
      (∀ i, period - 1 ≤ i → i < source.length →
        out.getD i none =
          some ((((source.drop (i + 1 - period)).take period).sum) / (period : ℚ))) := by
  exact sma_spec source period h2 hlen

theorem sma_rolling_mean_witness :
    2 ≤ 2 ∧ 2 ≤ ([(1 : ℚ), 2, 3] : List ℚ).length ∧
    ∃ out, ma_calculate ([(1 : ℚ), 2, 3].map some) 2 MA_Type.sma = .ok out ∧
      out.length = ([(1 : ℚ), 2, 3] : List ℚ).length ∧
      (∀ i, i < 2 - 1 → out.getD i none = none) ∧
      (∀ i, 2 - 1 ≤ i → i < ([(1 : ℚ), 2, 3] : List ℚ).length →
        out.getD i none =
          some (((([(1 : ℚ), 2, 3].drop (i + 1 - 2)).take 2).sum) / ((2 : ℕ) : ℚ))) :=
  ⟨by norm_num, by norm_num,
    sma_rolling_mean [(1 : ℚ), 2, 3] 2 (by norm_num) (by norm_num)⟩

/-- C6: the sma variant with period 1 returns the source series itself,
for every source, with no length check and no NaN injected. -/
theorem sma_period_one_identity (source : List Value) :
    ma_calculate source 1 MA_Type.sma = .ok source := by
  show sma_calculate source 1 = .ok source
  simp [sma_calculate]

/-- C7: for period at least 2, the sma variant fails exactly on sources
shorter than the period, with the error carrying the actual and required
lengths; on an all-finite source of length exactly period it succeeds with
exactly one non-NaN value, at the last index. -/
theorem sma_insufficient_boundary (source : List ℚ) (period : ℕ) (h2 : 2 ≤ period) :
    ((∃ e, ma_calculate (source.map some) period MA_Type.sma = .error e) ↔
      source.length < period) ∧
    (source.length < period →
      ma_calculate (source.map some) period MA_Type.sma =
        .error (.tooLittleData source.length period)) ∧
    (source.length = period →
      ∃ out, ma_calculate (source.map some) period MA_Type.sma = .ok out ∧
        out.length = period ∧
        (∀ i, i < period - 1 → out.getD i none = none) ∧
        ∃ q, out.getD (period - 1) none = some q) := by
  have hp1 : period ≠ 1 := by omega
  have hml : (source.map some).length = source.length := List.length_map source some
  have herr : source.length < period →
      ma_calculate (source.map some) period MA_Type.sma =
        .error (.tooLittleData source.length period) := by
    intro h
    show sma_calculate (source.map some) period = _
    rw [sma_calculate_of_short (source.map some) period hp1 (by omega), hml]
  refine ⟨⟨?_, fun h => ⟨_, herr h⟩⟩, herr, ?_⟩
  · rintro ⟨e, he⟩
    by_contra hnot
    obtain ⟨out, hok, -, -, -⟩ := sma_spec source period h2 (by omega)
    rw [show ma_calculate (source.map some) period MA_Type.sma
        = sma_calculate (source.map some) period from rfl, hok] at he
    exact absurd he (by simp)
  · intro hlen
    obtain ⟨out, hok, hl, hnan, hval⟩ := sma_spec source period h2 (by omega)
    refine ⟨out, hok, by omega, hnan, ?_⟩
    obtain h := hval (period - 1) (le_refl _) (by omega)
    exact ⟨_, h⟩

theorem sma_insufficient_boundary_witness :
    2 ≤ 6 ∧
    (((∃ e, ma_calculate ([(1 : ℚ), 2, 3, 4, 5].map some) 6 MA_Type.sma = .error e) ↔
      ([(1 : ℚ), 2, 3, 4, 5] : List ℚ).length < 6) ∧
    (([(1 : ℚ), 2, 3, 4, 5] : List ℚ).length < 6 →
      ma_calculate ([(1 : ℚ), 2, 3, 4, 5].map some) 6 MA_Type.sma =
        .error (.tooLittleData ([(1 : ℚ), 2, 3, 4, 5] : List ℚ).length 6)) ∧
    (([(1 : ℚ), 2, 3, 4, 5] : List ℚ).length = 6 →
      ∃ out, ma_calculate ([(1 : ℚ), 2, 3, 4, 5].map some) 6 MA_Type.sma = .ok out ∧
        out.length = 6 ∧
        (∀ i, i < 6 - 1 → out.getD i none = none) ∧
        ∃ q, out.getD (6 - 1) none = some q)) :=
  ⟨by norm_num, sma_insufficient_boundary [(1 : ℚ), 2, 3, 4, 5] 6 (by norm_num)⟩

/-! ### SMA-seeded exponential averages -/

theorem iema_spec (source : List Value) (period : ℕ) (alpha : ℚ)
    (hp : 1 ≤ period)
    (hlen : get_first_index_not_nan source + period ≤ source.length)
    (hfin : ∀ x ∈ (source.drop (get_first_index_not_nan source)).take period, x ≠ none) :
    ∃ out, iema_calculate source period alpha = .ok out ∧
      out.length = source.length ∧
      (∀ i, i < get_first_index_not_nan source + period - 1 → out.getD i none = none) ∧
      out.getD (get_first_index_not_nan source + period - 1) none =
        vdivc (vsum ((source.drop (get_first_index_not_nan source)).take period))
          (period : ℚ) ∧
      (∀ i, get_first_index_not_nan source + period - 1 < i → i < source.length →
        out.getD i none = ema_step alpha (out.getD (i - 1) none) (source.getD i none)) := by
  obtain ⟨q, hq⟩ := vsum_isSome _ hfin
  have hfv : vdivc (vsum ((source.drop (get_first_index_not_nan source)).take period))
      (period : ℚ) = some (q / period) := by
    rw [hq]
    rfl
  have hseed : ema_seed source
      (vdivc (vsum ((source.drop (get_first_index_not_nan source)).take period)) (period : ℚ))
      (get_first_index_not_nan source + period - 1) =
      (get_first_index_not_nan source + period - 1, some (q / period)) := by
    rw [hfv]
    exact ema_seed_some source (q / period) (get_first_index_not_nan source + period - 1)
  have ht : get_first_index_not_nan source + period - 1 < source.length := by omega
  refine ⟨_, iema_calculate_of_enough source period alpha (by omega), ?_, ?_, ?_, ?_⟩
  · exact ema_calculate_length _ _ _ _ _ _ hseed ht
  · intro i hi
    exact ema_calculate_getD_lt _ _ _ _ _ _ hseed i hi
  · rw [ema_calculate_getD_seed _ _ _ _ _ _ hseed, hfv]
  · intro i h1 h2
    exact ema_calculate_getD_rec _ _ _ _ _ _ hseed i h1 h2

/-- C2: for the ema variant (alpha 2/(period+1)) and the mma variant
(alpha 1/period), with s the first non-NaN index, at least s + period
samples and a NaN-free seed window, the output is NaN before index
s + period - 1, equals the arithmetic mean of source[s..s+period-1]
there, and follows the exponential recurrence at every later index. -/
theorem ema_mma_sma_seeded_spec (source : List Value) (period : ℕ)
    (hp : 1 ≤ period)
    (hlen : get_first_index_not_nan source + period ≤ source.length)
    (hfin : ∀ x ∈ (source.drop (get_first_index_not_nan source)).take period, x ≠ none) :
    (∃ out, ma_calculate source period MA_Type.ema = .ok out ∧
      out.length = source.length ∧
      (∀ i, i < get_first_index_not_nan source + period - 1 → out.getD i none = none) ∧
      out.getD (get_first_index_not_nan source + period - 1) none =
        vdivc (vsum ((source.drop (get_first_index_not_nan source)).take period))
          (period : ℚ) ∧
      (∀ i, get_first_index_not_nan source + period - 1 < i → i < source.length →
        out.getD i none =
          ema_step (2 / ((period : ℚ) + 1)) (out.getD (i - 1) none) (source.getD i none))) ∧
    (∃ out, ma_calculate source period MA_Type.mma = .ok out ∧
      out.length = source.length ∧
      (∀ i, i < get_first_index_not_nan source + period - 1 → out.getD i none = none) ∧
      out.getD (get_first_index_not_nan source + period - 1) none =
        vdivc (vsum ((source.drop (get_first_index_not_nan source)).take period))
          (period : ℚ) ∧
      (∀ i, get_first_index_not_nan source + period - 1 < i → i < source.length →
        out.getD i none =
          ema_step (1 / (period : ℚ)) (out.getD (i - 1) none) (source.getD i none))) :=
  ⟨iema_spec source period (2 / ((period : ℚ) + 1)) hp hlen hfin,
   iema_spec source period (1 / (period : ℚ)) hp hlen hfin⟩

theorem ema_mma_sma_seeded_spec_witness :
    1 ≤ 2 ∧
    get_first_index_not_nan [some 1, some 2, some 3, some 4] + 2 ≤
      ([some 1, some 2, some 3, some 4] : List Value).length ∧
    ((∃ out, ma_calculate [some 1, some 2, some 3, some 4] 2 MA_Type.ema = .ok out ∧
      out.length = ([some 1, some 2, some 3, some 4] : List Value).length ∧
      (∀ i, i < get_first_index_not_nan [some 1, some 2, some 3, some 4] + 2 - 1 →
        out.getD i none = none) ∧
      out.getD (get_first_index_not_nan [some 1, some 2, some 3, some 4] + 2 - 1) none =
        vdivc (vsum ((List.drop (get_first_index_not_nan [some 1, some 2, some 3, some 4])
          [some 1, some 2, some 3, some 4]).take 2)) ((2 : ℕ) : ℚ) ∧
      (∀ i, get_first_index_not_nan [some 1, some 2, some 3, some 4] + 2 - 1 < i →
        i < ([some 1, some 2, some 3, some 4] : List Value).length →
        out.getD i none =
          ema_step (2 / (((2 : ℕ) : ℚ) + 1)) (out.getD (i - 1) none)
            (List.getD [some 1, some 2, some 3, some 4] i none))) ∧
    (∃ out, ma_calculate [some 1, some 2, some 3, some 4] 2 MA_Type.mma = .ok out ∧
      out.length = ([some 1, some 2, some 3, some 4] : List Value).length ∧
      (∀ i, i < get_first_index_not_nan [some 1, some 2, some 3, some 4] + 2 - 1 →
        out.getD i none = none) ∧
      out.getD (get_first_index_not_nan [some 1, some 2, some 3, some 4] + 2 - 1) none =
        vdivc (vsum ((List.drop (get_first_index_not_nan [some 1, some 2, some 3, some 4])
          [some 1, some 2, some 3, some 4]).take 2)) ((2 : ℕ) : ℚ) ∧
      (∀ i, get_first_index_not_nan [some 1, some 2, some 3, some 4] + 2 - 1 < i →
        i < ([some 1, some 2, some 3, some 4] : List Value).length →
        out.getD i none =
          ema_step (1 / ((2 : ℕ) : ℚ)) (out.getD (i - 1) none)
            (List.getD [some 1, some 2, some 3, some 4] i none)))) :=
  ⟨by norm_num, by decide,
    ema_mma_sma_seeded_spec [some 1, some 2, some 3, some 4] 2 (by norm_num) (by decide)
      (by decide)⟩

/-- C5: the ema0 variant seeds at the first non-NaN index s with source[s],
is NaN strictly before s, follows the exponential recurrence with alpha
2/(period+1) after s, and a NaN sample after s makes every later output
NaN. -/
theorem ema0_seed_and_poison (source : List Value) (period : ℕ)
    (h : get_first_index_not_nan source < source.length) :
    ∃ out, ma_calculate source period MA_Type.ema0 = .ok out ∧
      out.length = source.length ∧
      (∀ i, i < get_first_index_not_nan source → out.getD i none = none) ∧
      out.getD (get_first_index_not_nan source) none =
        source.getD (get_first_index_not_nan source) none ∧
      (∀ i, get_first_index_not_nan source < i → i < source.length →
        out.getD i none =
          ema_step (2 / ((period : ℚ) + 1)) (out.getD (i - 1) none)
            (source.getD i none)) ∧
      (∀ j i, get_first_index_not_nan source < j → source.getD j none = none →
        j ≤ i → i < source.length → out.getD i none = none) := by
  have hseed := ema_seed_none_of_first_lt source 0 h
  refine ⟨ema_calculate source (2 / ((period : ℚ) + 1)) none 0, rfl, ?_, ?_, ?_, ?_, ?_⟩
  · exact ema_calculate_length _ _ _ _ _ _ hseed h
  · intro i hi
    exact ema_calculate_getD_lt _ _ _ _ _ _ hseed i hi
  · exact ema_calculate_getD_seed _ _ _ _ _ _ hseed
  · intro i h1 h2
    exact ema_calculate_getD_rec _ _ _ _ _ _ hseed i h1 h2
  · intro j i hj hjn hji hil
    exact ema_calculate_getD_none_from _ _ _ _ _ _ hseed j hj hjn i hji hil

theorem ema0_seed_and_poison_witness :
    get_first_index_not_nan [none, some 1, none, some 4] <
      ([none, some 1, none, some 4] : List Value).length ∧
    (∃ out, ma_calculate [none, some 1, none, some 4] 2 MA_Type.ema0 = .ok out ∧
      out.length = ([none, some 1, none, some 4] : List Value).length ∧
      (∀ i, i < get_first_index_not_nan [none, some 1, none, some 4] →
        out.getD i none = none) ∧
      out.getD (get_first_index_not_nan [none, some 1, none, some 4]) none =
        List.getD [none, some 1, none, some 4] (get_first_index_not_nan
          [none, some 1, none, some 4]) none ∧
      (∀ i, get_first_index_not_nan [none, some 1, none, some 4] < i →
        i < ([none, some 1, none, some 4] : List Value).length →
        out.getD i none =
          ema_step (2 / (((2 : ℕ) : ℚ) + 1)) (out.getD (i - 1) none)
            (List.getD [none, some 1, none, some 4] i none)) ∧
      (∀ j i, get_first_index_not_nan [none, some 1, none, some 4] < j →
        List.getD ([none, some 1, none, some 4] : List Value) j none = none →
        j ≤ i → i < ([none, some 1, none, some 4] : List Value).length →
        out.getD i none = none)) :=
  ⟨by decide, ema0_seed_and_poison [none, some 1, none, some 4] 2 (by decide)⟩

/-! ### Warm-up seed versus flat mean -/

/-- C3 (amended): for every source and period with at least period samples
from the first non-NaN index, the dynamically-weighted warm-up seed of
ema_warmup equals the flat arithmetic-mean seed of ema exactly: the
warm-up recurrence computes the running mean, so the two seed-derivation
procedures agree wherever both are defined (they can differ only through
floating-point rounding, which the exact model has none of). -/
theorem warmup_seed_eq_flat_mean (source : List Value) (period : ℕ)
    (hp : 1 ≤ period)
    (hlen : get_first_index_not_nan source + period ≤ source.length) :
    ema_warmup_init source period (get_first_index_not_nan source) =
      vdivc (vsum ((source.drop (get_first_index_not_nan source)).take period))
        (period : ℚ) :=
  ema_warmup_init_eq_mean source period (get_first_index_not_nan source) hp hlen

theorem warmup_seed_eq_flat_mean_witness :
    1 ≤ 3 ∧
    get_first_index_not_nan [some 2, some 4, some 9] + 3 ≤
      ([some 2, some 4, some 9] : List Value).length ∧
    ema_warmup_init [some 2, some 4, some 9] 3
        (get_first_index_not_nan [some 2, some 4, some 9]) =
      vdivc (vsum ((List.drop (get_first_index_not_nan [some 2, some 4, some 9])
        [some 2, some 4, some 9]).take 3)) ((3 : ℕ) : ℚ) :=
  ⟨by norm_num, by decide,
    warmup_seed_eq_flat_mean [some 2, some 4, some 9] 3 (by norm_num) (by decide)⟩

/-- C3 counterexample: the claimed existence of a source and period on
which the warm-up seed differs from the flat-mean seed is false — the two
procedures agree on every input satisfying the claim's premise. -/
theorem warmup_seed_distinct_refuted :
    ¬ ∃ (source : List Value) (period : ℕ),
      1 ≤ period ∧
      get_first_index_not_nan source + period ≤ source.length ∧
      (∀ x ∈ (source.drop (get_first_index_not_nan source)).take period, x ≠ none) ∧
      ema_warmup_init source period (get_first_index_not_nan source) ≠
        vdivc (vsum ((source.drop (get_first_index_not_nan source)).take period))
          (period : ℚ) := by
  rintro ⟨source, period, hp, hlen, -, hne⟩
  exact hne (ema_warmup_init_eq_mean source period (get_first_index_not_nan source) hp hlen)

/-! ### Error alignment of the warm-up variants -/

theorem warmup_vs_iema_errors (source : List Value) (period : ℕ) (alpha : ℚ) :
    ((∃ e, ema_warmup_calculate source period alpha = .error e) ↔
      (get_first_index_not_nan source < source.length ∧
        source.length < get_first_index_not_nan source + period)) ∧
    ((∃ e, iema_calculate source period alpha = .error e) ↔
      source.length < get_first_index_not_nan source + period) ∧
    (get_first_index_not_nan source < source.length →
      ∀ e, (ema_warmup_calculate source period alpha = .error e ↔
        iema_calculate source period alpha = .error e)) ∧
    (source.length ≤ get_first_index_not_nan source → 1 ≤ period →
      ema_warmup_calculate source period alpha = .ok (List.replicate source.length none) ∧
      iema_calculate source period alpha =
        .error (.tooLittleData source.length (get_first_index_not_nan source + period))) := by
  refine ⟨?_, ?_, ?_, ?_⟩
  · by_cases h1 : source.length ≤ get_first_index_not_nan source
    · rw [ema_warmup_calculate_of_all_nan source period alpha h1]
      simp
      omega
    · by_cases h2 : source.length < get_first_index_not_nan source + period
      · rw [ema_warmup_calculate_of_short source period alpha h1 h2]
        simp
        omega
      · rw [ema_warmup_calculate_of_enough source period alpha h1 h2]
        simp
        omega
  · by_cases h2 : source.length < get_first_index_not_nan source + period
    · rw [iema_calculate_of_short source period alpha h2]
      simp
      omega
    · rw [iema_calculate_of_enough source period alpha h2]
      simp
      omega
  · intro h1 e
    by_cases h2 : source.length < get_first_index_not_nan source + period
    · rw [ema_warmup_calculate_of_short source period alpha (by omega) h2,
        iema_calculate_of_short source period alpha h2]
    · rw [ema_warmup_calculate_of_enough source period alpha (by omega) h2,
        iema_calculate_of_enough source period alpha h2]
      simp
  · intro h1 hp
    exact ⟨ema_warmup_calculate_of_all_nan source period alpha h1,
      iema_calculate_of_short source period alpha (by omega)⟩

/-- C4 (amended): for every source and period, the warm-up variants raise
the insufficient-data error exactly when the SMA-seeded variants do,
except when every sample is NaN (the first non-NaN index is the length):
there ema/mma raise for every period at least 1, while ema_warmup and
mma_warmup return an all-NaN series of the source's length without
raising. -/
theorem warmup_error_alignment (source : List Value) (period : ℕ) :
    (((∃ e, ma_calculate source period MA_Type.ema_warmup = .error e) ↔
      (get_first_index_not_nan source < source.length ∧
        source.length < get_first_index_not_nan source + period)) ∧
    ((∃ e, ma_calculate source period MA_Type.ema = .error e) ↔
      source.length < get_first_index_not_nan source + period) ∧
    (get_first_index_not_nan source < source.length →
      ∀ e, (ma_calculate source period MA_Type.ema_warmup = .error e ↔
        ma_calculate source period MA_Type.ema = .error e)) ∧
    (source.length ≤ get_first_index_not_nan source → 1 ≤ period →
      ma_calculate source period MA_Type.ema_warmup =
        .ok (List.replicate source.length none) ∧
      ma_calculate source period MA_Type.ema =
        .error (.tooLittleData source.length
          (get_first_index_not_nan source + period)))) ∧
    (((∃ e, ma_calculate source period MA_Type.mma_warmup = .error e) ↔
      (get_first_index_not_nan source < source.length ∧
        source.length < get_first_index_not_nan source + period)) ∧
    ((∃ e, ma_calculate source period MA_Type.mma = .error e) ↔
      source.length < get_first_index_not_nan source + period) ∧
    (get_first_index_not_nan source < source.length →
      ∀ e, (ma_calculate source period MA_Type.mma_warmup = .error e ↔
        ma_calculate source period MA_Type.mma = .error e)) ∧
    (source.length ≤ get_first_index_not_nan source → 1 ≤ period →
      ma_calculate source period MA_Type.mma_warmup =
        .ok (List.replicate source.length none) ∧
      ma_calculate source period MA_Type.mma =
        .error (.tooLittleData source.length
          (get_first_index_not_nan source + period)))) :=
  ⟨warmup_vs_iema_errors source period (2 / ((period : ℚ) + 1)),
   warmup_vs_iema_errors source period (1 / (period : ℚ))⟩

/-- C4 counterexample: on the all-NaN source [NaN] with period 1 the
SMA-seeded variants raise insufficient data while the warm-up variants
return an all-NaN series, so the two do not fail in the same cases. -/
theorem warmup_allnan_divergence :
    ma_calculate [none] 1 MA_Type.mma_warmup = .ok [none] ∧
    ma_calculate [none] 1 MA_Type.mma = .error (.tooLittleData 1 2) ∧
    ma_calculate [none] 1 MA_Type.ema_warmup = .ok [none] ∧
    ma_calculate [none] 1 MA_Type.ema = .error (.tooLittleData 1 2) := by
  refine ⟨?_, ?_, ?_, ?_⟩ <;> rfl

/-! ### Container schema validation -/

theorem check_lengths_iff (d : Columns) :
    check_lengths d = true ↔ ∀ c1 ∈ d, ∀ c2 ∈ d, c1.2.length = c2.2.length := by
  cases d with
  | nil => simp [check_lengths]
  | cons c0 rest =>
    constructor
    · intro h c1 h1 c2 h2
      have h' : (rest.all fun c2 => decide (c2.2.length = c0.2.length)) = true := h
      have hall : ∀ x ∈ rest, x.2.length = c0.2.length := by
        intro x hx
        simpa using List.all_eq_true.mp h' x hx
      have e1 : c1.2.length = c0.2.length := by
        rcases List.mem_cons.mp h1 with rfl | hm
        · rfl
        · exact hall c1 hm
      have e2 : c2.2.length = c0.2.length := by
        rcases List.mem_cons.mp h2 with rfl | hm
        · rfl
        · exact hall c2 hm
      rw [e1, e2]
    · intro h
      show (rest.all fun c2 => decide (c2.2.length = c0.2.length)) = true
      refine List.all_eq_true.mpr fun x hx => by
        simpa using h x (List.mem_cons_of_mem c0 hx) c0 (List.mem_cons_self c0 rest)

theorem quotes_validate_allowed_found (d : Columns) (nm : String)
    (hfa : (d.map Prod.fst).find? (fun c => !(quotes_allowed.contains c)) = some nm) :
    quotes_validate d = .error (.unknownColumn nm) := by
  simp only [quotes_validate, validate_data]
  rw [hfa]

theorem quotes_validate_missing_found (d : Columns) (nm : String)
    (hfa : (d.map Prod.fst).find? (fun c => !(quotes_allowed.contains c)) = none)
    (hfr : quotes_required.find? (fun c => !((d.map Prod.fst).contains c)) = some nm) :
    quotes_validate d = .error (.missingRequiredColumn nm) := by
  simp only [quotes_validate, validate_data]
  rw [hfa, hfr]

theorem quotes_validate_bad_lengths (d : Columns)
    (hfa : (d.map Prod.fst).find? (fun c => !(quotes_allowed.contains c)) = none)
    (hfr : quotes_required.find? (fun c => !((d.map Prod.fst).contains c)) = none)
    (hl : 1 < d.length ∧ ¬ check_lengths d) :
    quotes_validate d = .error (.differentLengths (col_lengths d)) := by
  simp only [quotes_validate, validate_data]
  rw [hfa, hfr, if_pos hl]

theorem quotes_validate_ok (d : Columns)
    (hfa : (d.map Prod.fst).find? (fun c => !(quotes_allowed.contains c)) = none)
    (hfr : quotes_required.find? (fun c => !((d.map Prod.fst).contains c)) = none)
    (hl : ¬ (1 < d.length ∧ ¬ check_lengths d)) :
    quotes_validate d = .ok () := by
  simp only [quotes_validate, validate_data]
  rw [hfa, hfr, if_neg hl]

theorem allowed_find_none_iff (d : Columns) :
    (d.map Prod.fst).find? (fun c => !(quotes_allowed.contains c)) = none ↔
      ∀ c ∈ d, c.1 ∈ quotes_allowed := by
  rw [List.find?_eq_none]
  constructor
  · intro h c hc
    have := h c.1 (List.mem_map_of_mem Prod.fst hc)
    simpa using this
  · intro h x hx
    obtain ⟨c, hc, rfl⟩ := List.mem_map.mp hx
    simpa using h c hc

theorem required_find_none_iff (d : Columns) :
    quotes_required.find? (fun c => !((d.map Prod.fst).contains c)) = none ↔
      ∀ r ∈ quotes_required, r ∈ d.map Prod.fst := by
  rw [List.find?_eq_none]
  constructor
  · intro h r hr
    have := h r hr
    simpa using this
  · intro h r hr
    simpa using h r hr

/-- C8 (amended): Quote-container validation succeeds exactly when the
schema holds (all columns allowed, all required present, all lengths
equal), and the checks fire in the code's priority order: an unknown
column is reported first, then a missing required column, and only when
both checks pass does a length mismatch (with more than one column)
produce the error listing every column's length. -/
theorem quotes_schema_validation (d : Columns) :
    (quotes_validate d = .ok () ↔
      ((∀ c ∈ d, c.1 ∈ quotes_allowed) ∧
       (∀ r ∈ quotes_required, r ∈ d.map Prod.fst) ∧
       (∀ c1 ∈ d, ∀ c2 ∈ d, c1.2.length = c2.2.length))) ∧
    ((∃ c ∈ d, c.1 ∉ quotes_allowed) →
      ∃ name, quotes_validate d = .error (.unknownColumn name) ∧
        name ∈ d.map Prod.fst ∧ name ∉ quotes_allowed) ∧
    ((∀ c ∈ d, c.1 ∈ quotes_allowed) → (∃ r ∈ quotes_required, r ∉ d.map Prod.fst) →
      ∃ name, quotes_validate d = .error (.missingRequiredColumn name) ∧
        name ∈ quotes_required ∧ name ∉ d.map Prod.fst) ∧
    ((∀ c ∈ d, c.1 ∈ quotes_allowed) → (∀ r ∈ quotes_required, r ∈ d.map Prod.fst) →
      1 < d.length → ¬ (∀ c1 ∈ d, ∀ c2 ∈ d, c1.2.length = c2.2.length) →
      quotes_validate d = .error (.differentLengths (col_lengths d))) := by
  refine ⟨⟨?_, ?_⟩, ?_, ?_, ?_⟩
  · intro hok
    rcases hfa : (d.map Prod.fst).find? (fun c => !(quotes_allowed.contains c)) with _ | nm
    · rcases hfr : quotes_required.find? (fun c => !((d.map Prod.fst).contains c)) with _ | nm
      · refine ⟨(allowed_find_none_iff d).mp hfa, (required_find_none_iff d).mp hfr, ?_⟩
        by_cases hl : 1 < d.length ∧ ¬ check_lengths d
        · rw [quotes_validate_bad_lengths d hfa hfr hl] at hok
          exact absurd hok (by simp)
        · by_cases hlen2 : 1 < d.length
          · have hc : check_lengths d = true := by
              by_contra hc
              exact hl ⟨hlen2, by simpa using hc⟩
            exact (check_lengths_iff d).mp hc
          · match d with
            | [] => intro c1 h1; simp at h1
            | [c] =>
              intro c1 h1 c2 h2
              rw [List.mem_singleton.mp h1, List.mem_singleton.mp h2]
            | c :: c2 :: rest => simp at hlen2
      · rw [quotes_validate_missing_found d nm hfa hfr] at hok
        exact absurd hok (by simp)
    · rw [quotes_validate_allowed_found d nm hfa] at hok
      exact absurd hok (by simp)
  · rintro ⟨ha, hr, hl⟩
    refine quotes_validate_ok d ((allowed_find_none_iff d).mpr ha)
      ((required_find_none_iff d).mpr hr) ?_
    rintro ⟨-, hc⟩
    exact hc ((check_lengths_iff d).mpr hl)
  · rintro ⟨c, hc, hcn⟩
    rcases hfa : (d.map Prod.fst).find? (fun c => !(quotes_allowed.contains c)) with _ | nm
    · exact absurd ((allowed_find_none_iff d).mp hfa c hc) hcn
    · exact ⟨nm, quotes_validate_allowed_found d nm hfa, List.mem_of_find?_eq_some hfa,
        by simpa using List.find?_some hfa⟩
  · rintro ha ⟨r, hr, hrn⟩
    have hfa := (allowed_find_none_iff d).mpr ha
    rcases hfr : quotes_required.find? (fun c => !((d.map Prod.fst).contains c)) with _ | nm
    · exact absurd ((required_find_none_iff d).mp hfr r hr) hrn
    · exact ⟨nm, quotes_validate_missing_found d nm hfa hfr,
        List.mem_of_find?_eq_some hfr, by simpa using List.find?_some hfr⟩
  · intro ha hr hlen hne
    exact quotes_validate_bad_lengths d ((allowed_find_none_iff d).mpr ha)
      ((required_find_none_iff d).mpr hr)
      ⟨hlen, fun hc => hne ((check_lengths_iff d).mp hc)⟩

/-- C8 counterexample: the columns open (length 1) and high (length 2)
have different lengths, yet construction fails with the missing-column
error for low, not with the error listing every column's length — the
claim's length-mismatch clause does not hold unconditionally. -/
theorem quotes_schema_priority_cex :
    quotes_validate [("open", [some 0]), ("high", [some 0, some 0])] =
      .error (.missingRequiredColumn "low") ∧
    1 < ([("open", [some 0]), ("high", [some 0, some 0])] : Columns).length ∧
    ¬ (∀ c1 ∈ ([("open", [some 0]), ("high", [some 0, some 0])] : Columns),
        ∀ c2 ∈ ([("open", [some 0]), ("high", [some 0, some 0])] : Columns),
        c1.2.length = c2.2.length) ∧
    ∀ ls, quotes_validate [("open", [some 0]), ("high", [some 0, some 0])] ≠
      .error (.differentLengths ls) := by
  have h1 : quotes_validate [("open", [some 0]), ("high", [some 0, some 0])] =
      .error (.missingRequiredColumn "low") := rfl
  refine ⟨h1, by norm_num, ?_, ?_⟩
  · intro h
    have := h ("open", [some 0]) (by simp) ("high", [some 0, some 0]) (by simp)
    simp at this
  · intro ls h
    rw [h1] at h
    exact absurd h (by simp)

/-! ### Container slicing -/

/-- C9: on a container whose columns all have length n, a non-strided
range [a, b) slices every column identically, never fails, and yields
columns of length max 0 (min b n - a); an integer index (negative counted
from the end) yields a length-1 container holding that row when in range
and the index error otherwise. -/
theorem container_slicing_spec (d : Columns) (n a b : ℕ) (k : ℤ)
    (hn : ∀ c ∈ d, c.2.length = n) (hne : d ≠ []) :
    (create_sliced_range d a b = d.map fun c => (c.1, list_slice c.2 a b)) ∧
    (∀ c ∈ create_sliced_range d a b,
      (c.2.length : ℤ) = max 0 (min (b : ℤ) (n : ℤ) - (a : ℤ))) ∧
    (0 ≤ (if k < 0 then (n : ℤ) + k else k) → (if k < 0 then (n : ℤ) + k else k) < (n : ℤ) →
      create_sliced_int d k =
        .ok (d.map fun c => (c.1, [c.2.getD (if k < 0 then (n : ℤ) + k else k).toNat none]))) ∧
    ((if k < 0 then (n : ℤ) + k else k) < 0 ∨ (n : ℤ) ≤ (if k < 0 then (n : ℤ) + k else k) →
      create_sliced_int d k = .error (.indexOutOfRange (if k < 0 then (n : ℤ) + k else k) n)) := by
  obtain ⟨c0, rest, rfl⟩ : ∃ c0 rest, d = c0 :: rest := by
    cases d with
    | nil => exact absurd rfl hne
    | cons c0 rest => exact ⟨c0, rest, rfl⟩
  have hc0 : c0.2.length = n := hn c0 (List.mem_cons_self c0 rest)
  refine ⟨rfl, ?_, ?_, ?_⟩
  · intro c hc
    obtain ⟨c', hc', rfl⟩ := List.mem_map.mp hc
    have hlen := hn c' hc'
    show (((c'.2.drop a).take (b - a)).length : ℤ) = _
    rw [List.length_take, List.length_drop, hlen]
    omega
  · intro h0 hlt
    simp only [create_sliced_int]
    rw [hc0, if_neg (by omega)]
    congr 1
    refine List.map_congr_left fun col hcol => ?_
    have hcl := hn col hcol
    have hm : (if k < 0 then (n : ℤ) + k else k).toNat < col.2.length := by
      rw [hcl]; omega
    show (col.1, (col.2.drop _).take (_ + 1 - _)) = _
    rw [show (if k < 0 then (n : ℤ) + k else k).toNat + 1 -
        (if k < 0 then (n : ℤ) + k else k).toNat = 1 by omega,
      List.drop_eq_getElem_cons hm, List.take_succ_cons, List.take_zero,
      List.getD_eq_getElem col.2 none hm]
  · intro hor
    simp only [create_sliced_int]
    rw [hc0, if_pos (by omega)]

theorem container_slicing_spec_witness :
    (∀ c ∈ ([("open", [some 1, some 2]), ("close", [some 3, some 4])] : Columns),
      c.2.length = 2) ∧
    (([("open", [some 1, some 2]), ("close", [some 3, some 4])] : Columns) ≠ []) ∧
    ((create_sliced_range [("open", [some 1, some 2]), ("close", [some 3, some 4])] 1 5 =
      List.map (fun c => (c.1, list_slice c.2 1 5))
        [("open", [some 1, some 2]), ("close", [some 3, some 4])]) ∧
    (∀ c ∈ create_sliced_range
        [("open", [some 1, some 2]), ("close", [some 3, some 4])] 1 5,
      (c.2.length : ℤ) = max 0 (min ((5 : ℕ) : ℤ) ((2 : ℕ) : ℤ) - ((1 : ℕ) : ℤ))) ∧
    (0 ≤ (if (-1 : ℤ) < 0 then ((2 : ℕ) : ℤ) + (-1 : ℤ) else (-1 : ℤ)) →
      (if (-1 : ℤ) < 0 then ((2 : ℕ) : ℤ) + (-1 : ℤ) else (-1 : ℤ)) < ((2 : ℕ) : ℤ) →
      create_sliced_int [("open", [some 1, some 2]), ("close", [some 3, some 4])] (-1) =
        .ok (List.map (fun c => (c.1,
            [c.2.getD (if (-1 : ℤ) < 0 then ((2 : ℕ) : ℤ) + (-1 : ℤ)
              else (-1 : ℤ)).toNat none]))
          [("open", [some 1, some 2]), ("close", [some 3, some 4])])) ∧
    ((if (-1 : ℤ) < 0 then ((2 : ℕ) : ℤ) + (-1 : ℤ) else (-1 : ℤ)) < 0 ∨
        ((2 : ℕ) : ℤ) ≤ (if (-1 : ℤ) < 0 then ((2 : ℕ) : ℤ) + (-1 : ℤ) else (-1 : ℤ)) →
      create_sliced_int [("open", [some 1, some 2]), ("close", [some 3, some 4])] (-1) =
        .error (.indexOutOfRange
          (if (-1 : ℤ) < 0 then ((2 : ℕ) : ℤ) + (-1 : ℤ) else (-1 : ℤ)) 2))) :=
  ⟨by decide, by decide,
    container_slicing_spec [("open", [some 1, some 2]), ("close", [some 3, some 4])]
      2 1 5 (-1) (by decide) (by decide)⟩

/-! ### The public ma indicator -/

/-- C10: the public ma indicator raises the insufficient-data error with
the column's length and the period whenever the selected column is
shorter than the period — including period 1 on an empty column — because
its own length check runs before the engine, whose period-1 exemption
(sma at period 1 returns the source with no length check) is therefore
unreachable through this entry point. -/
theorem ma_indicator_length_check (quotes : Columns) (period : ℕ) (value ma_type : String)
    (t : MA_Type) (src : List Value)
    (hp : period ≠ 0)
    (hv : (["open", "high", "low", "close", "volume"].contains value) = true)
    (ht : MA_Type.cast ma_type = some t)
    (hl : List.lookup value quotes = some src)
    (hshort : src.length < period) :
    get_indicator_out quotes period value ma_type =
      .error (.tooLittleData src.length period) ∧
    ma_calculate src 1 MA_Type.sma = .ok src := by
  constructor
  · simp only [get_indicator_out]
    rw [if_neg hp, if_neg (by rw [hv]; simp), ht, hl]
    simp [hshort]
  · show sma_calculate src 1 = .ok src
    simp [sma_calculate]

theorem ma_indicator_length_check_witness :
    get_indicator_out [("close", [])] 1 "close" "sma" =
      .error (.tooLittleData (List.length ([] : List Value)) 1) ∧
    ma_calculate [] 1 MA_Type.sma = .ok [] :=
  ma_indicator_length_check [("close", [])] 1 "close" "sma" MA_Type.sma []
    (by decide) (by decide) (by decide) rfl (by decide)

end Pyita
